import Mathlib

/-!
Shallow embedding of the weekly task manager (bun-react repository).

The persistent store (src/database.ts) is modelled as an explicit state
value holding the rows of the two SQLite tables; each repository
operation of the TodoDatabase class becomes a pure function on that
state.  Non-deterministic environment inputs of the source (generated
UUIDs, the current time) become explicit parameters.  ISO-8601 timestamp
strings are modelled as natural numbers: string comparison of ISO
timestamps coincides with chronological comparison.  The HTTP request
handlers (src/index.tsx) become functions returning the response status,
the new store state and the list of published broadcast events.  The
pomodoro timer state machine (src/components/PomodoroTimer.tsx) is
embedded as a pure transition function on its component state.
-/

namespace TodoApp

open scoped List

/-- Session type of a pomodoro session: work, short break or long break
(src/database.ts, PomodoroSession.type). -/
inductive SessionType
  | work
  | short_break
  | long_break
  deriving DecidableEq, Repr

/-- A row of the tasks table (src/database.ts, interface Task).
Timestamps are modelled as naturals, the optional description as an
Option. -/
structure Task where
  id : String
  title : String
  description : Option String
  day : String
  priority : Nat
  completed : Bool
  created_at : Nat
  updated_at : Nat
  deriving DecidableEq, Repr

/-- A row of the pomodoro_sessions table (src/database.ts, interface
PomodoroSession). -/
structure PomodoroSession where
  id : String
  task_id : Option String
  duration : Nat
  started_at : Nat
  completed_at : Option Nat
  type : SessionType
  deriving DecidableEq, Repr

/-- The persistent store: the rows of the two tables created by
TodoDatabase.init (src/database.ts). -/
structure DBState where
  tasks : List Task
  sessions : List PomodoroSession
  deriving DecidableEq, Repr

/-- A value bound to a SQL parameter in a dynamically built statement.
SQLite values relevant to this schema: text, integer, boolean and null. -/
inductive FieldValue
  | str (s : String)
  | nat (n : Nat)
  | bool (b : Bool)
  | null
  deriving DecidableEq, Repr

/-- The column names of the tasks table (src/database.ts, init). -/
def taskColumns : List String :=
  ["id", "title", "description", "day", "priority", "completed", "created_at", "updated_at"]

/-- The field names accepted by the TypeScript type of updateTask,
Partial of Task without id and created_at (src/database.ts line 119). -/
def mutableTaskFields : List String :=
  ["title", "description", "day", "priority", "completed", "updated_at"]

/-- The seven recognized weekday tokens (src/frontend DAYS list). -/
def validDays : List String :=
  ["monday", "tuesday", "wednesday", "thursday", "friday", "saturday", "sunday"]

/-- The data fields of a task a PUT body normally updates: the mutable
fields other than the server-managed updated_at timestamp. -/
def taskDataFields : List String :=
  ["title", "description", "day", "priority", "completed"]

/-- Assign one SQL SET target of the tasks table: column name to value.
Unknown column names are a store error (SQLite: no such column), modelled
as none.  Known columns require the value shape the schema stores. -/
def applyField (t : Task) (key : String) (v : FieldValue) : Option Task :=
  if key = "id" then
    match v with | .str s => some { t with id := s } | _ => none
  else if key = "title" then
    match v with | .str s => some { t with title := s } | _ => none
  else if key = "description" then
    match v with
    | .str s => some { t with description := some s }
    | .null => some { t with description := none }
    | _ => none
  else if key = "day" then
    match v with | .str s => some { t with day := s } | _ => none
  else if key = "priority" then
    match v with | .nat n => some { t with priority := n } | _ => none
  else if key = "completed" then
    match v with | .bool b => some { t with completed := b } | _ => none
  else if key = "created_at" then
    match v with | .nat n => some { t with created_at := n } | _ => none
  else if key = "updated_at" then
    match v with | .nat n => some { t with updated_at := n } | _ => none
  else none

/-- Read a column of a task row as a FieldValue, for stating frame
properties of updates. -/
def getField (t : Task) (key : String) : Option FieldValue :=
  if key = "id" then some (.str t.id)
  else if key = "title" then some (.str t.title)
  else if key = "description" then
    match t.description with | some s => some (.str s) | none => some .null
  else if key = "day" then some (.str t.day)
  else if key = "priority" then some (.nat t.priority)
  else if key = "completed" then some (.bool t.completed)
  else if key = "created_at" then some (.nat t.created_at)
  else if key = "updated_at" then some (.nat t.updated_at)
  else none

/-- A key/value pair that applyField accepts on every row. -/
def wellTyped (key : String) (v : FieldValue) : Bool :=
  if key = "id" then v matches .str _
  else if key = "title" then v matches .str _
  else if key = "description" then (v matches .str _) || (v matches .null)
  else if key = "day" then v matches .str _
  else if key = "priority" then v matches .nat _
  else if key = "completed" then v matches .bool _
  else if key = "created_at" then v matches .nat _
  else if key = "updated_at" then v matches .nat _
  else false

/-- First bound value of a parameter name in a parameter list, mirroring
the construction of the params object in updateTask (src/database.ts
lines 131 to 135): the spread of the update entries overwrites the
initial bindings of the id and updated_at parameters. -/
def lookupField (updates : List (String × FieldValue)) (key : String) : Option FieldValue :=
  (updates.find? (fun kv => kv.1 == key)).map (fun kv => kv.2)

/-- The comma-separated SET targets built from the keys of the update
object (src/database.ts line 121): each key is interpolated verbatim on
both sides of the assignment. -/
def buildSetClause (keys : List String) : String :=
  String.intercalate ", " (keys.map fun key => key ++ " = $" ++ key)

/-- The full text of the dynamically built UPDATE statement
(src/database.ts lines 127 to 129). -/
def updateSQL (keys : List String) : String :=
  "UPDATE tasks SET " ++ buildSetClause keys ++ ", updated_at = $updated_at WHERE id = $id"

/-- createTask (src/database.ts lines 80 to 107): build the new row from
the supplied fields, the generated id and the current time (created_at
and updated_at both set to now) and insert it. -/
def createTask (title : String) (description : Option String) (day : String)
    (priority : Nat) (completed : Bool) (id : String) (now : Nat) (s : DBState) :
    Task × DBState :=
  let newTask : Task :=
    { id := id, title := title, description := description, day := day,
      priority := priority, completed := completed, created_at := now, updated_at := now }
  (newTask, { s with tasks := s.tasks ++ [newTask] })

/-- getTask (src/database.ts lines 147 to 150): SELECT by primary key. -/
def getTask (id : String) (s : DBState) : Option Task :=
  s.tasks.find? (fun t => t.id == id)

/-- The ordering of getTasksByDay, ORDER BY priority ASC, created_at ASC
(src/database.ts line 110). -/
def taskLE (a b : Task) : Prop :=
  a.priority < b.priority ∨ (a.priority = b.priority ∧ a.created_at ≤ b.created_at)

instance : DecidableRel taskLE := fun a b => by
  unfold taskLE; infer_instance

instance : IsTotal Task taskLE where
  total a b := by
    unfold taskLE
    rcases Nat.lt_trichotomy a.priority b.priority with h | h | h
    · exact Or.inl (Or.inl h)
    · rcases Nat.le_total a.created_at b.created_at with h2 | h2
      · exact Or.inl (Or.inr ⟨h, h2⟩)
      · exact Or.inr (Or.inr ⟨h.symm, h2⟩)
    · exact Or.inr (Or.inl h)

instance : IsTrans Task taskLE where
  trans a b c hab hbc := by
    unfold taskLE at *
    rcases hab with h1 | ⟨h1, h1c⟩ <;> rcases hbc with h2 | ⟨h2, h2c⟩
    · exact Or.inl (h1.trans h2)
    · exact Or.inl (h2 ▸ h1)
    · exact Or.inl (h1 ▸ h2)
    · exact Or.inr ⟨h1.trans h2, h1c.trans h2c⟩

/-- getTasksByDay (src/database.ts lines 109 to 112): the rows whose day
column matches, sorted by priority then created_at.  The SQL leaves the
order of fully tied rows unspecified; a stable sort is one refinement of
that contract. -/
def getTasksByDay (day : String) (s : DBState) : List Task :=
  List.insertionSort taskLE (s.tasks.filter (fun t => t.day == day))

/-- The per-row effect of the dynamically built UPDATE of updateTask:
apply every SET target in order, then the appended updated_at target,
whose bound value is the caller's entry when the update object itself
contains an updated_at key (the object spread overwrites the binding),
else the current time. -/
def updateRow (updates : List (String × FieldValue)) (now : Nat) (t : Task) : Option Task :=
  (updates.foldlM (fun acc kv => applyField acc kv.1 kv.2) t).bind fun t1 =>
    applyField t1 "updated_at" ((lookupField updates "updated_at").getD (.nat now))

/-- updateTask (src/database.ts lines 119 to 139): with no update keys,
return the current row without touching the store; otherwise run the
dynamically built UPDATE on every row matched by the id parameter (the
binding of which the spread overwrites when the object has an id key)
and re-read the row.  A key that is not a column of the tasks table
makes the statement fail at the store, modelled as error. -/
def updateTask (id : String) (updates : List (String × FieldValue)) (now : Nat)
    (s : DBState) : Except Unit (Option Task × DBState) :=
  if updates.isEmpty then .ok (getTask id s, s)
  else if updates.all (fun kv => taskColumns.contains kv.1) then
    let whereId := (lookupField updates "id").getD (.str id)
    match s.tasks.mapM (fun t =>
        if FieldValue.str t.id == whereId then updateRow updates now t else some t) with
    | some ts => .ok (getTask id { s with tasks := ts }, { s with tasks := ts })
    | none => .error ()
  else .error ()

/-- The ON DELETE SET NULL action the pomodoro_sessions schema declares
for task_id (src/database.ts line 69).  The action is inert at runtime:
SQLite enforces foreign keys only when PRAGMA foreign_keys is enabled on
the connection, and init (src/database.ts lines 43 to 77) issues only
the WAL pragma, so this function describes what the schema declares, not
what deleteTask does. -/
def clearTaskRef (id : String) (ss : PomodoroSession) : PomodoroSession :=
  if ss.task_id = some id then { ss with task_id := none } else ss

/-- deleteTask (src/database.ts lines 141 to 145): DELETE by id, report
whether a row was deleted.  Because init never enables PRAGMA
foreign_keys (off by default in SQLite), the ON DELETE SET NULL clause
declared on pomodoro_sessions.task_id does not fire: session rows are
untouched and a reference to the deleted id is left dangling. -/
def deleteTask (id : String) (s : DBState) : Bool × DBState :=
  if s.tasks.any (fun t => t.id == id) then
    (true, { s with tasks := s.tasks.filter (fun t => t.id != id) })
  else (false, s)

/-- One step of the reorder transaction: UPDATE tasks SET priority
WHERE id (src/database.ts line 155), applied to every row whose id
matches. -/
def setPriority (tasks : List Task) (id : String) (p : Nat) : List Task :=
  tasks.map fun t => if t.id = id then { t with priority := p } else t

/-- The body of the reorder transaction: for each listed id in order,
set its priority to its 1-based position (starting from p). -/
def reorderFrom (tasks : List Task) : List String → Nat → List Task
  | [], _ => tasks
  | tid :: rest, p => reorderFrom (setPriority tasks tid p) rest (p + 1)

/-- reorderTasks (src/database.ts lines 152 to 161): run the priority
updates for the listed ids inside one transaction.  The day argument of
the source function is unused by its body. -/
def reorderTasks (taskIds : List String) (s : DBState) : DBState :=
  { s with tasks := reorderFrom s.tasks taskIds 1 }

/-- Derived pointwise form of the reorder transaction, used to reason
about reorderFrom when the listed ids are duplicate free: a listed row
receives the priority given by its position, every other row is
unchanged. -/
def reorderF (ids : List String) (p : Nat) (t : Task) : Task :=
  if t.id ∈ ids then { t with priority := ids.indexOf t.id + p } else t

/-- createPomodoroSession (src/database.ts lines 164 to 183): insert the
supplied session fields under a generated id. -/
def createPomodoroSession (task_id : Option String) (duration : Nat)
    (started_at : Nat) (completed_at : Option Nat) (ty : SessionType)
    (id : String) (s : DBState) : PomodoroSession × DBState :=
  let newSession : PomodoroSession :=
    { id := id, task_id := task_id, duration := duration,
      started_at := started_at, completed_at := completed_at, type := ty }
  (newSession, { s with sessions := s.sessions ++ [newSession] })

/-- completePomodoroSession (src/database.ts lines 185 to 192): set
completed_at to the current time on every row with the given id, with no
guard on its previous value, then re-read the row. -/
def completePomodoroSession (id : String) (now : Nat) (s : DBState) :
    Option PomodoroSession × DBState :=
  let sessions1 := s.sessions.map fun ss =>
    if ss.id = id then { ss with completed_at := some now } else ss
  (sessions1.find? (fun ss => ss.id == id), { s with sessions := sessions1 })

/-! Request handlers (src/index.tsx).  Each handler returns the HTTP
status, the store state afterwards and the broadcast events published. -/

/-- An event published to the broadcast hub (src/index.tsx). -/
inductive Event
  | task_created (t : Task)
  | task_updated (t : Task)
  | task_deleted (id : String)
  | tasks_reordered (day : String) (taskIds : List String)
  | session_started (s : PomodoroSession)
  | session_completed (s : PomodoroSession)
  deriving DecidableEq, Repr

/-- Result of one request: response status, store state afterwards and
the events published to the broadcast hub. -/
structure HandlerResult where
  status : Nat
  state : DBState
  events : List Event
  deriving DecidableEq, Repr

/-- JavaScript falsiness of an optional string body field: absent, null
or the empty string. -/
def jsFalsy : Option String → Bool
  | none => true
  | some s => s.isEmpty

/-- POST /api/tasks (src/index.tsx lines 29 to 63): 400 when title or
day is falsy, otherwise create the task with priority 1 and completed
false and publish task_created. -/
def postTaskHandler (title description day : Option String) (id : String)
    (now : Nat) (s : DBState) : HandlerResult :=
  if jsFalsy title || jsFalsy day then ⟨400, s, []⟩
  else
    let r := createTask (title.getD "") description (day.getD "") 1 false id now s
    ⟨200, r.2, [.task_created r.1]⟩

/-- PUT /api/tasks/:id (src/index.tsx lines 67 to 91): run updateTask on
the raw request body; 404 with no event when it reports no row, 500 with
no event when the store throws, else 200 and one task_updated event. -/
def putTaskHandler (id : String) (body : List (String × FieldValue)) (now : Nat)
    (s : DBState) : HandlerResult :=
  match updateTask id body now s with
  | .error _ => ⟨500, s, []⟩
  | .ok (none, s1) => ⟨404, s1, []⟩
  | .ok (some task, s1) => ⟨200, s1, [.task_updated task]⟩

/-- DELETE /api/tasks/:id (src/index.tsx lines 92 to 112): 404 with no
event when no row was deleted, else 200 and one task_deleted event. -/
def deleteTaskHandler (id : String) (s : DBState) : HandlerResult :=
  let r := deleteTask id s
  if r.1 then ⟨200, r.2, [.task_deleted id]⟩ else ⟨404, r.2, []⟩

/-- POST /api/tasks/reorder (src/index.tsx lines 115 to 145): 400 when
day is falsy or taskIds is not an array, else run the reorder and
publish one tasks_reordered event. -/
def reorderTasksHandler (day : Option String) (taskIds : Option (List String))
    (s : DBState) : HandlerResult :=
  if jsFalsy day || taskIds.isNone then ⟨400, s, []⟩
  else
    ⟨200, reorderTasks (taskIds.getD []) s,
      [.tasks_reordered (day.getD "") (taskIds.getD [])]⟩

/-- POST /api/pomodoro/sessions (src/index.tsx lines 164 to 198): 400
when duration or type is falsy (a zero duration is falsy), else insert a
session with completed_at null and started_at now, coercing a falsy
task_id to null, and publish session_started. -/
def postSessionHandler (task_id : Option String) (duration : Option Nat)
    (ty : Option SessionType) (id : String) (now : Nat) (s : DBState) : HandlerResult :=
  match duration, ty with
  | some d, some t =>
    if d = 0 then ⟨400, s, []⟩
    else
      let tid := match task_id with | some "" => none | x => x
      let r := createPomodoroSession tid d now none t id s
      ⟨200, r.2, [.session_started r.1]⟩
  | _, _ => ⟨400, s, []⟩

/-- POST /api/pomodoro/sessions/:id/complete (src/index.tsx lines 201 to
229): 404 with no event when the session does not exist, else 200 and
one session_completed event. -/
def completeSessionHandler (id : String) (now : Nat) (s : DBState) : HandlerResult :=
  match completePomodoroSession id now s with
  | (none, s1) => ⟨404, s1, []⟩
  | (some session, s1) => ⟨200, s1, [.session_completed session]⟩

/-! Pomodoro timer state machine (src/components/PomodoroTimer.tsx). -/

/-- Component state of the timer (src/components/PomodoroTimer.tsx,
interface PomodoroState). -/
structure PomodoroState where
  timeLeft : Nat
  isRunning : Bool
  currentType : SessionType
  sessionCount : Nat
  currentSessionId : Option String
  deriving DecidableEq, Repr

/-- Nominal durations per session type in seconds
(src/components/PomodoroTimer.tsx, TIMER_DURATIONS). -/
def TIMER_DURATIONS : SessionType → Nat
  | .work => 25 * 60
  | .short_break => 5 * 60
  | .long_break => 15 * 60

/-- The pure state transition of completeSession
(src/components/PomodoroTimer.tsx lines 88 to 126): bump the completed
work counter only after a work session, pick the next type (long break
when the updated counter is a multiple of 4 after work, else short
break; always work after a break) and reset the timer. -/
def completeSession (st : PomodoroState) : PomodoroState :=
  let newSessionCount :=
    if st.currentType = .work then st.sessionCount + 1 else st.sessionCount
  let nextType : SessionType :=
    if st.currentType = .work then
      (if newSessionCount % 4 = 0 then .long_break else .short_break)
    else .work
  { timeLeft := TIMER_DURATIONS nextType
    isRunning := false
    currentType := nextType
    sessionCount := newSessionCount
    currentSessionId := none }

/-- Initial component state of the timer
(src/components/PomodoroTimer.tsx lines 18 to 24). -/
def initialPomodoroState : PomodoroState :=
  { timeLeft := TIMER_DURATIONS .work, isRunning := false,
    currentType := .work, sessionCount := 0, currentSessionId := none }

/-! Theorems -/

/-- C8: the completed-work counter increments exactly on completion of a
work session; the next type after a completion is long_break exactly
when the completed session was work and the updated counter is a
multiple of 4, is short_break exactly when it was work and the updated
counter is not a multiple of 4, and is work exactly when a break was
completed; concretely, starting from the initial state and alternating
work and break completions, work completions 1 through 3 select
short_break and the 4th selects long_break. -/
theorem C8_pomodoro_next_type :
    (∀ st : PomodoroState, (completeSession st).sessionCount =
      if st.currentType = .work then st.sessionCount + 1 else st.sessionCount) ∧
    (∀ st : PomodoroState, ((completeSession st).currentType = .long_break ↔
      (st.currentType = .work ∧ (st.sessionCount + 1) % 4 = 0))) ∧
    (∀ st : PomodoroState, ((completeSession st).currentType = .short_break ↔
      (st.currentType = .work ∧ (st.sessionCount + 1) % 4 ≠ 0))) ∧
    (∀ st : PomodoroState, ((completeSession st).currentType = .work ↔
      st.currentType ≠ .work)) ∧
    (let c1 := completeSession initialPomodoroState
     let c2 := completeSession (completeSession c1)
     let c3 := completeSession (completeSession c2)
     let c4 := completeSession (completeSession c3)
     c1.currentType = .short_break ∧ c1.sessionCount = 1 ∧
     c2.currentType = .short_break ∧ c2.sessionCount = 2 ∧
     c3.currentType = .short_break ∧ c3.sessionCount = 3 ∧
     c4.currentType = .long_break ∧ c4.sessionCount = 4) := by
  refine ⟨?_, ?_, ?_, ?_, by decide⟩ <;>
    intro st <;>
    cases h : st.currentType <;>
    by_cases h4 : (st.sessionCount + 1) % 4 = 0 <;>
    simp [completeSession, h, h4]

/-- C1 counterexample: with a single monday task of id a, the list
with a listed twice satisfies the claim's hypothesis (each listed id
belongs to a task of that day), yet after the reorder the task with id
a has priority 2, not the priority 1 demanded for index 0 of the
list. -/
theorem C1_counterexample :
    let t0 : Task := ⟨"a", "T", none, "monday", 1, false, 0, 0⟩
    let s0 : DBState := ⟨[t0], []⟩
    let s1 := reorderTasks ["a", "a"] s0
    (∀ i ∈ (["a", "a"] : List String), ∃ t ∈ s0.tasks, t.id = i ∧ t.day = "monday") ∧
    (getTask "a" s1).map Task.priority = some 2 ∧
    ¬ (getTask "a" s1).map Task.priority = some 1 := by
  decide

/-- C3 counterexample: a call of updateTask with an empty partial field
set returns the stored row and leaves the store untouched, so updated_at
keeps its old value 0 instead of being refreshed to the call time 5. -/
theorem C3_counterexample :
    let t0 : Task := ⟨"a", "T", none, "monday", 1, false, 0, 0⟩
    let s0 : DBState := ⟨[t0], []⟩
    updateTask "a" [] 5 s0 = .ok (some t0, s0) ∧ t0.updated_at ≠ 5 :=
  ⟨rfl, by decide⟩

/-- C4 counterexample: a POST with non-empty title and the day funday,
which is not one of the seven weekday tokens, is not rejected: the
handler answers 200 and creates the task row with day funday. -/
theorem C4_counterexample :
    let r := postTaskHandler (some "x") none (some "funday") "id1" 0 ⟨[], []⟩
    ("funday" ∉ validDays) ∧ r.status = 200 ∧ r.status ≠ 400 ∧
    r.state.tasks = [⟨"id1", "x", none, "funday", 1, false, 0, 0⟩] := by
  decide

/-- C5 counterexample: an update setting title to the empty string is
not rejected: updateTask succeeds and the stored row's title becomes
empty, and the PUT handler answers 200 rather than 400. -/
theorem C5_counterexample :
    let t0 : Task := ⟨"a", "T", none, "monday", 1, false, 0, 0⟩
    let t1 : Task := ⟨"a", "", none, "monday", 1, false, 0, 5⟩
    let s0 : DBState := ⟨[t0], []⟩
    updateTask "a" [("title", FieldValue.str "")] 5 s0 = .ok (some t1, ⟨[t1], []⟩) ∧
    t1.title = "" ∧
    (putTaskHandler "a" [("title", FieldValue.str "")] 5 s0).status = 200 :=
  ⟨rfl, rfl, rfl⟩

/-- C9 counterexample: completing the same session twice is not a
no-op the second time: the first completion at time 1 sets completed_at
to 1, and the second completion at time 2 overwrites it with 2. -/
theorem C9_counterexample :
    let ss0 : PomodoroSession := ⟨"s1", none, 1500, 0, none, .work⟩
    let s0 : DBState := ⟨[], [ss0]⟩
    let r1 := completePomodoroSession "s1" 1 s0
    let r2 := completePomodoroSession "s1" 2 r1.2
    r1.1.map PomodoroSession.completed_at = some (some 1) ∧
    r2.1.map PomodoroSession.completed_at = some (some 2) ∧
    r2.1 ≠ r1.1 := by
  decide

/-- C10: update keys are interpolated verbatim into the SET clause of
the UPDATE statement, and a key outside the mutable Task fields is not
rejected by any validation: the key created_at, which the update type
excludes, is passed through and overwrites the created_at column with
a 200 response, while a key naming no column makes the statement fail at
the store, surfaced as 500. -/
theorem C10_raw_update_keys :
    (∀ k : String, buildSetClause [k] = k ++ " = $" ++ k) ∧
    ("created_at" ∉ mutableTaskFields) ∧
    buildSetClause ["created_at"] = "created_at = $created_at" ∧
    updateSQL ["created_at"] =
      "UPDATE tasks SET created_at = $created_at, updated_at = $updated_at WHERE id = $id" ∧
    (let t0 : Task := ⟨"a", "T", none, "monday", 1, false, 0, 0⟩
     let s0 : DBState := ⟨[t0], []⟩
     let r := putTaskHandler "a" [("created_at", FieldValue.nat 999)] 5 s0
     r.status = 200 ∧ r.status ≠ 400 ∧
     (getTask "a" r.state).map Task.created_at = some 999) ∧
    (let t0 : Task := ⟨"a", "T", none, "monday", 1, false, 0, 0⟩
     (putTaskHandler "a" [("zzz", FieldValue.nat 1)] 5 ⟨[t0], []⟩).status = 500) := by
  refine ⟨fun k => rfl, by decide, rfl, rfl, ⟨rfl, by decide, rfl⟩, rfl⟩

/-- A well-typed value is accepted by applyField on every row. -/
theorem applyField_isSome (t : Task) (k : String) (v : FieldValue)
    (h : wellTyped k v = true) : (applyField t k v).isSome := by
  unfold wellTyped at h
  unfold applyField
  split_ifs at h ⊢ <;> cases v <;> simp_all

/-- Writing the id field changes no other column. -/
theorem getField_set_id (t : Task) (c : String) (x : String) (hne : c ≠ "id") :
    getField { t with id := x } c = getField t c := by
  simp [getField, hne]

theorem getField_set_title (t : Task) (c : String) (x : String) (hne : c ≠ "title") :
    getField { t with title := x } c = getField t c := by
  simp [getField, hne]

theorem getField_set_description (t : Task) (c : String) (x : Option String)
    (hne : c ≠ "description") :
    getField { t with description := x } c = getField t c := by
  simp [getField, hne]

theorem getField_set_day (t : Task) (c : String) (x : String) (hne : c ≠ "day") :
    getField { t with day := x } c = getField t c := by
  simp [getField, hne]

theorem getField_set_priority (t : Task) (c : String) (x : Nat) (hne : c ≠ "priority") :
    getField { t with priority := x } c = getField t c := by
  simp [getField, hne]

theorem getField_set_completed (t : Task) (c : String) (x : Bool) (hne : c ≠ "completed") :
    getField { t with completed := x } c = getField t c := by
  simp [getField, hne]

theorem getField_set_created_at (t : Task) (c : String) (x : Nat) (hne : c ≠ "created_at") :
    getField { t with created_at := x } c = getField t c := by
  simp [getField, hne]

theorem getField_set_updated_at (t : Task) (c : String) (x : Nat) (hne : c ≠ "updated_at") :
    getField { t with updated_at := x } c = getField t c := by
  simp [getField, hne]

/-- applyField leaves every other column unchanged. -/
theorem applyField_getField_frame (t t' : Task) (k c : String) (v : FieldValue)
    (h : applyField t k v = some t') (hne : c ≠ k) : getField t' c = getField t c := by
  unfold applyField at h
  split_ifs at h with h1 h2 h3 h4 h5 h6 h7 h8
  all_goals cases v <;> simp only [Option.some.injEq, reduceCtorEq] at h
  all_goals subst h
  · exact getField_set_id t c _ (h1 ▸ hne)
  · exact getField_set_title t c _ (h2 ▸ hne)
  · exact getField_set_description t c _ (h3 ▸ hne)
  · exact getField_set_description t c _ (h3 ▸ hne)
  · exact getField_set_day t c _ (h4 ▸ hne)
  · exact getField_set_priority t c _ (h5 ▸ hne)
  · exact getField_set_completed t c _ (h6 ▸ hne)
  · exact getField_set_created_at t c _ (h7 ▸ hne)
  · exact getField_set_updated_at t c _ (h8 ▸ hne)

/-- applyField writes the named column. -/
theorem applyField_getField_self (t t' : Task) (k : String) (v : FieldValue)
    (h : applyField t k v = some t') : getField t' k = some v := by
  unfold applyField at h
  split_ifs at h with h1 h2 h3 h4 h5 h6 h7 h8
  all_goals cases v <;> simp only [Option.some.injEq, reduceCtorEq] at h
  all_goals subst h
  · rw [h1]; rfl
  · rw [h2]; rfl
  · rw [h3]; rfl
  · rw [h3]; rfl
  · rw [h4]; rfl
  · rw [h5]; rfl
  · rw [h6]; rfl
  · rw [h7]; rfl
  · rw [h8]; rfl

/-- A parameter name bound by none of the update entries resolves to
its initial binding. -/
theorem lookupField_eq_none (updates : List (String × FieldValue)) (key : String)
    (h : ∀ kv ∈ updates, kv.1 ≠ key) : lookupField updates key = none := by
  have hf : updates.find? (fun kv => kv.1 == key) = none := by
    rw [List.find?_eq_none]
    intro kv hkv
    simp [h kv hkv]
  simp [lookupField, hf]

/-- mapM over Option succeeds pointwise. -/
theorem mapM_eq_some_of_pointwise {α β : Type} (f : α → Option β) (g : α → β) :
    ∀ l : List α, (∀ a ∈ l, f a = some (g a)) → l.mapM f = some (l.map g) := by
  intro l
  induction l with
  | nil => intro _; rfl
  | cons a l ih =>
    intro h
    rw [List.mapM_cons, h a (by simp), ih (fun x hx => h x (by simp [hx]))]
    rfl

/-- Folding well-typed field assignments over a row succeeds, writes
each named column once, and leaves every other column unchanged. -/
theorem foldlM_applyField_frame (updates : List (String × FieldValue)) :
    ∀ t : Task,
    (∀ kv ∈ updates, wellTyped kv.1 kv.2 = true) →
    (updates.map Prod.fst).Nodup →
    ∃ t1, updates.foldlM (fun acc kv => applyField acc kv.1 kv.2) t = some t1 ∧
      (∀ kv ∈ updates, getField t1 kv.1 = some kv.2) ∧
      (∀ c, c ∉ updates.map Prod.fst → getField t1 c = getField t c) := by
  induction updates with
  | nil =>
    intro t _ _
    exact ⟨t, rfl, by simp, fun c _ => rfl⟩
  | cons kv rest ih =>
    intro t hwt hnodup
    have hk : wellTyped kv.1 kv.2 = true := hwt kv (by simp)
    obtain ⟨ta, hta⟩ := Option.isSome_iff_exists.mp (applyField_isSome t kv.1 kv.2 hk)
    have hnodup0 : kv.1 ∉ rest.map Prod.fst ∧ (rest.map Prod.fst).Nodup := by
      rw [List.map_cons, List.nodup_cons] at hnodup
      exact hnodup
    obtain ⟨t1, h1, h2, h3⟩ := ih ta (fun x hx => hwt x (by simp [hx])) hnodup0.2
    refine ⟨t1, ?_, ?_, ?_⟩
    · rw [List.foldlM_cons, hta]
      exact h1
    · intro x hx
      rcases List.mem_cons.mp hx with rfl | hx1
      · rw [h3 _ hnodup0.1]
        exact applyField_getField_self t ta x.1 x.2 hta
      · exact h2 x hx1
    · intro c hc
      rw [List.map_cons, List.mem_cons] at hc
      push_neg at hc
      rw [h3 c hc.2]
      exact applyField_getField_frame t ta kv.1 c kv.2 hta hc.1

/-- A column of the task data fields is none of the server-managed
columns. -/
theorem mem_taskDataFields_ne (c : String) (hc : c ∈ taskDataFields) :
    c ≠ "id" ∧ c ≠ "created_at" ∧ c ≠ "updated_at" := by
  simp only [taskDataFields, List.mem_cons, List.mem_singleton, List.not_mem_nil,
    or_false] at hc
  rcases hc with rfl | rfl | rfl | rfl | rfl <;> refine ⟨by decide, by decide, by decide⟩

/-- updateRow on well-typed data-field updates succeeds, writing the
named columns, refreshing updated_at to the call time and leaving the
remaining columns (id and created_at among them) unchanged. -/
theorem updateRow_frame (updates : List (String × FieldValue)) (now : Nat) (t : Task)
    (hkeys : ∀ kv ∈ updates, kv.1 ∈ taskDataFields)
    (hwt : ∀ kv ∈ updates, wellTyped kv.1 kv.2 = true)
    (hnodup : (updates.map Prod.fst).Nodup) :
    ∃ t', updateRow updates now t = some t' ∧
      t'.id = t.id ∧ t'.created_at = t.created_at ∧ t'.updated_at = now ∧
      (∀ kv ∈ updates, getField t' kv.1 = some kv.2) ∧
      (∀ c ∈ taskDataFields, c ∉ updates.map Prod.fst → getField t' c = getField t c) := by
  obtain ⟨t1, h1, h2, h3⟩ := foldlM_applyField_frame updates t hwt hnodup
  have hupd : lookupField updates "updated_at" = none :=
    lookupField_eq_none _ _ (fun kv hkv => (mem_taskDataFields_ne kv.1 (hkeys kv hkv)).2.2)
  have hid : t1.id = t.id := by
    have := h3 "id" (fun hmem => by
      obtain ⟨kv, hkv, hk1⟩ := List.mem_map.mp hmem
      exact (mem_taskDataFields_ne kv.1 (hkeys kv hkv)).1 hk1)
    simpa [getField] using this
  have hca : t1.created_at = t.created_at := by
    have := h3 "created_at" (fun hmem => by
      obtain ⟨kv, hkv, hk1⟩ := List.mem_map.mp hmem
      exact (mem_taskDataFields_ne kv.1 (hkeys kv hkv)).2.1 hk1)
    simpa [getField] using this
  refine ⟨{ t1 with updated_at := now }, ?_, hid, hca, rfl, ?_, ?_⟩
  · unfold updateRow
    rw [h1, hupd]
    rfl
  · intro kv hkv
    rw [getField_set_updated_at t1 kv.1 now
      (mem_taskDataFields_ne kv.1 (hkeys kv hkv)).2.2]
    exact h2 kv hkv
  · intro c hc hcu
    rw [getField_set_updated_at t1 c now (mem_taskDataFields_ne c hc).2.2]
    exact h3 c hcu

/-- find? over an id-preserving per-row transform of a duplicate-free
table returns the transformed unique matching row. -/
theorem find?_map_of_nodup (g : Task → Task) (id : String)
    (hgid : ∀ u, (g u).id = u.id) :
    ∀ (l : List Task) (t : Task), (l.map Task.id).Nodup → t ∈ l → t.id = id →
      (l.map g).find? (fun u => u.id == id) = some (g t) := by
  intro l
  induction l with
  | nil => intro t _ ht _; cases ht
  | cons u l ih =>
    intro t hnd ht hid
    rw [List.map_cons]
    by_cases hu : u.id = id
    · rw [List.find?_cons_of_pos _ (by simp [hgid, hu])]
      rcases List.mem_cons.mp ht with rfl | ht1
      · rfl
      · exfalso
        rw [List.map_cons, List.nodup_cons] at hnd
        exact hnd.1 (hu ▸ hid ▸ List.mem_map_of_mem Task.id ht1)
    · rw [List.find?_cons_of_neg _ (by simp [hgid, hu])]
      rcases List.mem_cons.mp ht with rfl | ht1
      · exact absurd hid hu
      · rw [List.map_cons, List.nodup_cons] at hnd
        exact ih t hnd.2 ht1 hid

/-- updateTask on a present id with a nonempty, duplicate-free,
well-typed set of data-field updates succeeds, returning the stored row
with exactly the named columns overwritten and updated_at refreshed;
rows with other ids and the session table are untouched and no row is
added or removed. -/
theorem updateTask_found (id : String) (updates : List (String × FieldValue)) (now : Nat)
    (s : DBState) (t : Task)
    (hids : (s.tasks.map Task.id).Nodup)
    (ht : t ∈ s.tasks) (hid : t.id = id)
    (hkeys : ∀ kv ∈ updates, kv.1 ∈ taskDataFields)
    (hwt : ∀ kv ∈ updates, wellTyped kv.1 kv.2 = true)
    (hnodup : (updates.map Prod.fst).Nodup)
    (hne : updates ≠ []) :
    ∃ t' s1, updateTask id updates now s = .ok (some t', s1) ∧
      t' ∈ s1.tasks ∧
      t'.id = t.id ∧ t'.created_at = t.created_at ∧ t'.updated_at = now ∧
      (∀ kv ∈ updates, getField t' kv.1 = some kv.2) ∧
      (∀ c ∈ taskDataFields, c ∉ updates.map Prod.fst → getField t' c = getField t c) ∧
      (∀ u ∈ s.tasks, u.id ≠ id → u ∈ s1.tasks) ∧
      s1.tasks.length = s.tasks.length ∧ s1.sessions = s.sessions := by
  have hie : updates.isEmpty = false := by
    cases updates with
    | nil => exact absurd rfl hne
    | cons a l => rfl
  have hall : updates.all (fun kv => taskColumns.contains kv.1) = true := by
    rw [List.all_eq_true]
    intro kv hkv
    have hmem : kv.1 ∈ taskDataFields := hkeys kv hkv
    have hsub : ∀ c ∈ taskDataFields, c ∈ taskColumns := by decide
    simpa using hsub kv.1 hmem
  have hwhere : lookupField updates "id" = none :=
    lookupField_eq_none _ _ (fun kv hkv => (mem_taskDataFields_ne kv.1 (hkeys kv hkv)).1)
  have hrow : ∀ u : Task, ∃ t2, updateRow updates now u = some t2 ∧
      t2.id = u.id ∧ t2.created_at = u.created_at ∧ t2.updated_at = now ∧
      (∀ kv ∈ updates, getField t2 kv.1 = some kv.2) ∧
      (∀ c ∈ taskDataFields, c ∉ updates.map Prod.fst → getField t2 c = getField u c) :=
    fun u => updateRow_frame updates now u hkeys hwt hnodup
  set g : Task → Task := fun u =>
    if u.id = id then (updateRow updates now u).getD u else u with hg
  have hgid : ∀ u, (g u).id = u.id := by
    intro u
    by_cases h : u.id = id
    · obtain ⟨t2, e, hid2, -⟩ := hrow u
      simp [hg, h, e, hid2]
    · simp [hg, h]
  have hpt : ∀ u ∈ s.tasks, (if FieldValue.str u.id == (lookupField updates "id").getD
      (.str id) then updateRow updates now u else some u) = some (g u) := by
    intro u _
    rw [hwhere]
    by_cases h : u.id = id
    · obtain ⟨t2, e, -⟩ := hrow u
      simp [hg, h, e]
    · have hbeq : (FieldValue.str u.id == FieldValue.str id) = false := by
        simp [h]
      simp [hg, h, hbeq]
  have hmapM : s.tasks.mapM (fun u => if FieldValue.str u.id == (lookupField updates
      "id").getD (.str id) then updateRow updates now u else some u) =
      some (s.tasks.map g) :=
    mapM_eq_some_of_pointwise _ g s.tasks hpt
  have hget : (s.tasks.map g).find? (fun u => u.id == id) = some (g t) :=
    find?_map_of_nodup g id hgid s.tasks t hids ht hid
  refine ⟨g t, { s with tasks := s.tasks.map g }, ?_, ?_, ?_, ?_, ?_, ?_, ?_, ?_, by
    simp, rfl⟩
  · simp only [updateTask, hie, Bool.false_eq_true, if_false, hall, if_true]
    rw [hmapM]
    simp only [getTask, hget]
  · exact List.mem_map_of_mem g ht
  all_goals (
    obtain ⟨t2, e, hid2, hca2, hu2, hset2, hframe2⟩ := hrow t
    have hgt : g t = t2 := by simp [hg, hid, e])
  · rw [hgt, hid2]
  · rw [hgt, hca2]
  · rw [hgt, hu2]
  · rw [hgt]; exact hset2
  · rw [hgt]; exact hframe2
  · intro u hu hune
    have : g u = u := by simp [hg, hune]
    exact this ▸ List.mem_map_of_mem g hu

/-- deleteTask reports whether some row had the id. -/
theorem deleteTask_fst (id : String) (s : DBState) :
    (deleteTask id s).1 = s.tasks.any (fun t => t.id == id) := by
  unfold deleteTask
  split <;> simp_all

/-- deleteTask on a present id filters the task rows and leaves the
session rows untouched. -/
theorem deleteTask_found (id : String) (s : DBState)
    (h : s.tasks.any (fun t => t.id == id) = true) :
    deleteTask id s = (true, { s with tasks := s.tasks.filter (fun t => t.id != id) }) := by
  unfold deleteTask
  simp [h]

/-- deleteTask on an absent id changes nothing and reports false. -/
theorem deleteTask_not_found (id : String) (s : DBState)
    (h : s.tasks.any (fun t => t.id == id) = false) :
    deleteTask id s = (false, s) := by
  unfold deleteTask
  simp [h]

/-- The delete handler's status is decided by the repository signal. -/
theorem deleteTaskHandler_status (id : String) (s : DBState) :
    (deleteTaskHandler id s).status = if (deleteTask id s).1 then 200 else 404 := by
  unfold deleteTaskHandler
  split <;> simp_all

/-- The delete handler passes the repository state through. -/
theorem deleteTaskHandler_state (id : String) (s : DBState) :
    (deleteTaskHandler id s).state = (deleteTask id s).2 := by
  by_cases h : (deleteTask id s).1 <;> simp [deleteTaskHandler, h]

/-- C3 amended: for a nonempty, duplicate-free, well-typed set of data
field updates on a stored id, updateTask changes exactly the supplied
fields plus updated_at (set to the call time) on the matching row,
leaving its other columns and every other row unchanged; a call with the
empty partial field set changes nothing at all, updated_at included. -/
theorem C3_update_merges_supplied_fields (s : DBState) (id : String) (now : Nat)
    (updates : List (String × FieldValue)) (t : Task)
    (hids : (s.tasks.map Task.id).Nodup)
    (ht : t ∈ s.tasks) (hid : t.id = id)
    (hkeys : ∀ kv ∈ updates, kv.1 ∈ taskDataFields)
    (hwt : ∀ kv ∈ updates, wellTyped kv.1 kv.2 = true)
    (hnodup : (updates.map Prod.fst).Nodup)
    (hne : updates ≠ []) :
    (∃ t' s1, updateTask id updates now s = .ok (some t', s1) ∧
      t'.id = t.id ∧ t'.created_at = t.created_at ∧ t'.updated_at = now ∧
      (∀ kv ∈ updates, getField t' kv.1 = some kv.2) ∧
      (∀ c ∈ taskDataFields, c ∉ updates.map Prod.fst → getField t' c = getField t c) ∧
      (∀ u ∈ s.tasks, u.id ≠ id → u ∈ s1.tasks)) ∧
    updateTask id [] now s = .ok (getTask id s, s) := by
  constructor
  · obtain ⟨t', s1, heq, hmem, hidp, hca, hua, hset, hframe, hothers, hlen, hsess⟩ :=
      updateTask_found id updates now s t hids ht hid hkeys hwt hnodup hne
    exact ⟨t', s1, heq, hidp, hca, hua, hset, hframe, hothers⟩
  · rfl

/-- Witness for C3 amended: updating only the completed flag of a
concrete stored task. -/
theorem C3_update_merges_supplied_fields_witness :
    (∃ t' s1, updateTask "a" [("completed", FieldValue.bool true)] 5
        ⟨[⟨"a", "T", none, "monday", 1, false, 0, 0⟩], []⟩ = .ok (some t', s1) ∧
      t'.id = (⟨"a", "T", none, "monday", 1, false, 0, 0⟩ : Task).id ∧
      t'.created_at = (⟨"a", "T", none, "monday", 1, false, 0, 0⟩ : Task).created_at ∧
      t'.updated_at = 5 ∧
      (∀ kv ∈ [("completed", FieldValue.bool true)], getField t' kv.1 = some kv.2) ∧
      (∀ c ∈ taskDataFields, c ∉ [("completed", FieldValue.bool true)].map Prod.fst →
        getField t' c = getField (⟨"a", "T", none, "monday", 1, false, 0, 0⟩ : Task) c) ∧
      (∀ u ∈ (⟨[⟨"a", "T", none, "monday", 1, false, 0, 0⟩], []⟩ : DBState).tasks,
        u.id ≠ "a" → u ∈ s1.tasks)) ∧
    updateTask "a" [] 5 ⟨[⟨"a", "T", none, "monday", 1, false, 0, 0⟩], []⟩ =
      .ok (getTask "a" ⟨[⟨"a", "T", none, "monday", 1, false, 0, 0⟩], []⟩,
        ⟨[⟨"a", "T", none, "monday", 1, false, 0, 0⟩], []⟩) :=
  C3_update_merges_supplied_fields ⟨[⟨"a", "T", none, "monday", 1, false, 0, 0⟩], []⟩
    "a" 5 [("completed", FieldValue.bool true)] ⟨"a", "T", none, "monday", 1, false, 0, 0⟩
    (by decide) (by decide) (by decide) (by decide) (by decide) (by decide) (by decide)

/-- C5 amended: updateTask performs no title validation: an update
setting title to the empty string on a stored id succeeds, the stored
row's title becomes empty, and the PUT handler answers 200, publishing
the update, rather than rejecting with a validation error. -/
theorem C5_empty_title_not_rejected (s : DBState) (id : String) (now : Nat) (t : Task)
    (hids : (s.tasks.map Task.id).Nodup)
    (ht : t ∈ s.tasks) (hid : t.id = id) :
    ∃ t' s1, updateTask id [("title", FieldValue.str "")] now s = .ok (some t', s1) ∧
      t'.title = "" ∧ t' ∈ s1.tasks ∧
      (putTaskHandler id [("title", FieldValue.str "")] now s).status = 200 := by
  obtain ⟨t', s1, heq, hmem, hidp, hca, hua, hset, hframe, hothers, hlen, hsess⟩ :=
    updateTask_found id [("title", FieldValue.str "")] now s t hids ht hid
      (by decide) (by decide) (by decide) (by decide)
  have htitle : t'.title = "" := by
    have := hset ("title", FieldValue.str "") (by simp)
    simpa [getField] using this
  refine ⟨t', s1, heq, htitle, hmem, ?_⟩
  simp [putTaskHandler, heq]

/-- Witness for C5 amended at a concrete one-task store. -/
theorem C5_empty_title_not_rejected_witness :
    ∃ t' s1, updateTask "a" [("title", FieldValue.str "")] 5
        ⟨[⟨"a", "T", none, "monday", 1, false, 0, 0⟩], []⟩ = .ok (some t', s1) ∧
      t'.title = "" ∧ t' ∈ s1.tasks ∧
      (putTaskHandler "a" [("title", FieldValue.str "")] 5
        ⟨[⟨"a", "T", none, "monday", 1, false, 0, 0⟩], []⟩).status = 200 :=
  C5_empty_title_not_rejected ⟨[⟨"a", "T", none, "monday", 1, false, 0, 0⟩], []⟩
    "a" 5 ⟨"a", "T", none, "monday", 1, false, 0, 0⟩ (by decide) (by decide) (by decide)

/-- C2: the code diverges from the claim.  With one task a and one
session s1 referencing it, deleteTask removes the task row and deletes
no session row, but the reference is not cleared: s1 keeps task_id a,
now dangling, because init never enables PRAGMA foreign_keys and the
declared ON DELETE SET NULL action (clearTaskRef) therefore never
fires. -/
theorem C2_dangling_reference :
    let t0 : Task := ⟨"a", "T", none, "monday", 1, false, 0, 0⟩
    let ss0 : PomodoroSession := ⟨"s1", some "a", 1500, 0, none, .work⟩
    let r := deleteTask "a" ⟨[t0], [ss0]⟩
    r.1 = true ∧ r.2.tasks = [] ∧
    r.2.sessions = [ss0] ∧
    ss0.task_id = some "a" ∧
    clearTaskRef "a" ss0 = { ss0 with task_id := none } ∧
    r.2.sessions ≠ [{ ss0 with task_id := none }] := by
  decide

/-- C7: deleting an existing id succeeds once (HTTP 200) and the
immediately repeated delete reports not found (HTTP 404); deleting an id
with no stored row never reports success. -/
theorem C7_delete_idempotent_signal (s : DBState) (id : String) :
    ((∃ t ∈ s.tasks, t.id = id) →
      (deleteTask id s).1 = true ∧
      (deleteTaskHandler id s).status = 200 ∧
      (deleteTask id (deleteTask id s).2).1 = false ∧
      (deleteTaskHandler id (deleteTaskHandler id s).state).status = 404) ∧
    ((∀ t ∈ s.tasks, t.id ≠ id) →
      (deleteTask id s).1 = false ∧ (deleteTaskHandler id s).status = 404) := by
  constructor
  · intro htask
    have hany : s.tasks.any (fun t => t.id == id) = true := by
      rw [List.any_eq_true]
      obtain ⟨t, ht, hid⟩ := htask
      exact ⟨t, ht, by simp [hid]⟩
    have hany2 : ((deleteTask id s).2.tasks).any (fun t => t.id == id) = false := by
      rw [deleteTask_found id s hany, List.any_eq_false]
      intro t ht
      simp only [List.mem_filter, bne_iff_ne, ne_eq] at ht
      simp [ht.2]
    refine ⟨?_, ?_, ?_, ?_⟩
    · rw [deleteTask_fst, hany]
    · rw [deleteTaskHandler_status, deleteTask_fst, hany]; rfl
    · rw [deleteTask_fst, hany2]
    · rw [deleteTaskHandler_state, deleteTaskHandler_status, deleteTask_fst, hany2]; rfl
  · intro htask
    have hany : s.tasks.any (fun t => t.id == id) = false := by
      rw [List.any_eq_false]
      intro t ht
      simp [htask t ht]
    constructor
    · rw [deleteTask_fst, hany]
    · rw [deleteTaskHandler_status, deleteTask_fst, hany]; rfl

/-- Witness for C7 at a concrete one-task store. -/
theorem C7_delete_idempotent_signal_witness :
    (deleteTask "a" ⟨[⟨"a", "T", none, "monday", 1, false, 0, 0⟩], []⟩).1 = true ∧
    (deleteTaskHandler "a" ⟨[⟨"a", "T", none, "monday", 1, false, 0, 0⟩], []⟩).status = 200 ∧
    (deleteTask "a" (deleteTask "a" ⟨[⟨"a", "T", none, "monday", 1, false, 0, 0⟩], []⟩).2).1 = false ∧
    (deleteTaskHandler "a"
      (deleteTaskHandler "a" ⟨[⟨"a", "T", none, "monday", 1, false, 0, 0⟩], []⟩).state).status = 404 :=
  (C7_delete_idempotent_signal ⟨[⟨"a", "T", none, "monday", 1, false, 0, 0⟩], []⟩ "a").1
    (by decide)

/-- C9 amended: a session row is inserted with completed_at null by the
session-creation handler, and each completePomodoroSession call sets
completed_at of the matching row to that call's time, leaving its other
fields and every other row unchanged and deleting nothing; the setting
is unconditional, so a repeated completion overwrites the timestamp. -/
theorem C9_completed_at_unconditional (s : DBState) (id : String) (now : Nat)
    (task_id : Option String) (d : Nat) (ty : SessionType) (sid : String) (t0 : Nat)
    (hd : d ≠ 0) :
    ((postSessionHandler task_id (some d) (some ty) sid t0 s).state.sessions =
      s.sessions ++
        [⟨sid, (match task_id with | some "" => none | x => x), d, t0, none, ty⟩]) ∧
    (∀ ss ∈ s.sessions, ss.id ≠ id →
      ss ∈ (completePomodoroSession id now s).2.sessions) ∧
    (∀ ss ∈ s.sessions, ss.id = id →
      { ss with completed_at := some now } ∈ (completePomodoroSession id now s).2.sessions) ∧
    (completePomodoroSession id now s).2.sessions.length = s.sessions.length := by
  refine ⟨?_, ?_, ?_, by simp [completePomodoroSession]⟩
  · simp [postSessionHandler, hd, createPomodoroSession]
  · intro ss hss hne
    simp only [completePomodoroSession]
    have : (if ss.id = id then { ss with completed_at := some now } else ss) = ss := by
      simp [hne]
    exact this ▸ List.mem_map_of_mem _ hss
  · intro ss hss heq
    simp only [completePomodoroSession]
    have : (if ss.id = id then { ss with completed_at := some now } else ss) =
        { ss with completed_at := some now } := by
      simp [heq]
    exact this ▸ List.mem_map_of_mem _ hss

/-- Witness for C9 amended at a concrete store with one session. -/
theorem C9_completed_at_unconditional_witness :
    ((postSessionHandler none (some 1500) (some .work) "s2" 7
        ⟨[], [⟨"s1", none, 1500, 0, none, .work⟩]⟩).state.sessions =
      [⟨"s1", none, 1500, 0, none, .work⟩] ++
        [⟨"s2", (match (none : Option String) with | some "" => none | x => x), 1500, 7, none, .work⟩]) ∧
    (∀ ss ∈ ([⟨"s1", none, 1500, 0, none, .work⟩] : List PomodoroSession), ss.id ≠ "s1" →
      ss ∈ (completePomodoroSession "s1" 9 ⟨[], [⟨"s1", none, 1500, 0, none, .work⟩]⟩).2.sessions) ∧
    (∀ ss ∈ ([⟨"s1", none, 1500, 0, none, .work⟩] : List PomodoroSession), ss.id = "s1" →
      { ss with completed_at := some 9 } ∈
        (completePomodoroSession "s1" 9 ⟨[], [⟨"s1", none, 1500, 0, none, .work⟩]⟩).2.sessions) ∧
    (completePomodoroSession "s1" 9 ⟨[], [⟨"s1", none, 1500, 0, none, .work⟩]⟩).2.sessions.length =
      ([⟨"s1", none, 1500, 0, none, .work⟩] : List PomodoroSession).length :=
  C9_completed_at_unconditional ⟨[], [⟨"s1", none, 1500, 0, none, .work⟩]⟩ "s1" 9
    none 1500 .work "s2" 7 (by decide)

/-- C4 amended: the create handler rejects with 400, leaving the store
unchanged and publishing nothing, exactly when title or day is absent or
empty; any non-empty title and non-empty day string is accepted, the day
token is not checked against the seven weekday tokens, and the created
row carries the supplied fields with priority 1 and completed false. -/
theorem C4_create_task_presence_only (title description day : Option String)
    (id : String) (now : Nat) (s : DBState) :
    ((jsFalsy title || jsFalsy day) = true →
      postTaskHandler title description day id now s = ⟨400, s, []⟩) ∧
    ((jsFalsy title || jsFalsy day) = false →
      postTaskHandler title description day id now s =
        ⟨200,
          { s with tasks := s.tasks ++
              [⟨id, title.getD "", description, day.getD "", 1, false, now, now⟩] },
          [.task_created ⟨id, title.getD "", description, day.getD "", 1, false, now, now⟩]⟩) := by
  constructor <;> intro h <;> simp [postTaskHandler, h, createTask]

/-- Witness for C4 amended: a concrete accepted request and a concrete
rejected request. -/
theorem C4_create_task_presence_only_witness :
    postTaskHandler (some "x") none (some "monday") "id1" 3 ⟨[], []⟩ =
      ⟨200, ⟨[⟨"id1", "x", none, "monday", 1, false, 3, 3⟩], []⟩,
        [.task_created ⟨"id1", "x", none, "monday", 1, false, 3, 3⟩]⟩ ∧
    postTaskHandler (some "") none (some "monday") "id2" 3 ⟨[], []⟩ = ⟨400, ⟨[], []⟩, []⟩ :=
  ⟨(C4_create_task_presence_only (some "x") none (some "monday") "id1" 3 ⟨[], []⟩).2 (by decide),
   (C4_create_task_presence_only (some "") none (some "monday") "id2" 3 ⟨[], []⟩).1 (by decide)⟩

/-- C6: each mutation handler publishes exactly one event of the
matching type exactly when it answers 200: a PUT whose body holds
well-typed data fields, or a DELETE, on an id with no stored row answers
404 and publishes nothing; a rejected or failed create or reorder
publishes nothing and leaves the store unchanged; and every success
publishes exactly one event of its kind. -/
theorem C6_publish_iff_success (s : DBState) (id : String) (now : Nat)
    (body : List (String × FieldValue))
    (title description day : Option String) (rday : Option String)
    (taskIds : Option (List String)) :
    ((putTaskHandler id body now s).status = 200 ↔
      ∃ t, (putTaskHandler id body now s).events = [Event.task_updated t]) ∧
    ((putTaskHandler id body now s).status ≠ 200 →
      (putTaskHandler id body now s).events = []) ∧
    ((∀ kv ∈ body, kv.1 ∈ taskDataFields ∧ wellTyped kv.1 kv.2 = true) →
      getTask id s = none →
      (putTaskHandler id body now s).status = 404 ∧
      (putTaskHandler id body now s).events = []) ∧
    ((deleteTaskHandler id s).status = 200 ↔
      (deleteTaskHandler id s).events = [Event.task_deleted id]) ∧
    ((deleteTaskHandler id s).status ≠ 200 → (deleteTaskHandler id s).events = []) ∧
    (getTask id s = none →
      (deleteTaskHandler id s).status = 404 ∧ (deleteTaskHandler id s).events = []) ∧
    ((postTaskHandler title description day id now s).status = 200 ↔
      ∃ t, (postTaskHandler title description day id now s).events =
        [Event.task_created t]) ∧
    ((postTaskHandler title description day id now s).status ≠ 200 →
      (postTaskHandler title description day id now s).events = [] ∧
      (postTaskHandler title description day id now s).state = s) ∧
    ((reorderTasksHandler rday taskIds s).status = 200 ↔
      ∃ d ids, (reorderTasksHandler rday taskIds s).events =
        [Event.tasks_reordered d ids]) ∧
    ((reorderTasksHandler rday taskIds s).status ≠ 200 →
      (reorderTasksHandler rday taskIds s).events = [] ∧
      (reorderTasksHandler rday taskIds s).state = s) := by
  have hput404 : (∀ kv ∈ body, kv.1 ∈ taskDataFields ∧ wellTyped kv.1 kv.2 = true) →
      getTask id s = none →
      (putTaskHandler id body now s).status = 404 ∧
      (putTaskHandler id body now s).events = [] := by
    intro hbody hnone
    have hne : ∀ u ∈ s.tasks, u.id ≠ id := by
      intro u hu
      have := List.find?_eq_none.mp hnone u hu
      simpa using this
    cases hb : body with
    | nil =>
      subst hb
      have hupd : updateTask id [] now s = .ok (none, s) := by
        unfold updateTask
        simp [hnone]
      constructor <;> simp [putTaskHandler, hupd]
    | cons kv rest =>
      rw [← hb]
      have hie : body.isEmpty = false := by rw [hb]; rfl
      have hall : body.all (fun kv => taskColumns.contains kv.1) = true := by
        rw [List.all_eq_true]
        intro kv hkv
        have hmem : kv.1 ∈ taskDataFields := (hbody kv hkv).1
        have hsub : ∀ c ∈ taskDataFields, c ∈ taskColumns := by decide
        simpa using hsub kv.1 hmem
      have hwhere : lookupField body "id" = none :=
        lookupField_eq_none _ _
          (fun kv hkv => (mem_taskDataFields_ne kv.1 ((hbody kv hkv).1)).1)
      have hpt : ∀ u ∈ s.tasks, (if FieldValue.str u.id == (lookupField body
          "id").getD (.str id) then updateRow body now u else some u) = some u := by
        intro u hu
        rw [hwhere]
        have hbeq : (FieldValue.str u.id == FieldValue.str id) = false := by
          simp [hne u hu]
        simp [hbeq]
      have hmapM : s.tasks.mapM (fun u => if FieldValue.str u.id == (lookupField body
          "id").getD (.str id) then updateRow body now u else some u) =
          some (s.tasks.map (fun u => u)) :=
        mapM_eq_some_of_pointwise _ (fun u => u) s.tasks hpt
      have heq : updateTask id body now s =
          .ok (getTask id { s with tasks := s.tasks.map (fun u => u) },
            { s with tasks := s.tasks.map (fun u => u) }) := by
        simp only [updateTask, hie, Bool.false_eq_true, if_false, hall, if_true]
        rw [hmapM]
      have hmapid : s.tasks.map (fun u => u) = s.tasks := by simp
      rw [hmapid] at heq
      have hgets : getTask id { s with tasks := s.tasks } = none := hnone
      constructor <;> simp [putTaskHandler, heq, hgets]
  refine ⟨?_, ?_, hput404, ?_, ?_, ?_, ?_, ?_, ?_, ?_⟩
  · rcases h : updateTask id body now s with e | ⟨o, s1⟩
    · simp [putTaskHandler, h]
    · cases o <;> simp [putTaskHandler, h]
  · rcases h : updateTask id body now s with e | ⟨o, s1⟩
    · simp [putTaskHandler, h]
    · cases o <;> simp [putTaskHandler, h]
  · by_cases hd : (deleteTask id s).1 <;> simp [deleteTaskHandler, hd]
  · by_cases hd : (deleteTask id s).1 <;> simp [deleteTaskHandler, hd]
  · intro hnone
    have hany : s.tasks.any (fun t => t.id == id) = false := by
      rw [List.any_eq_false]
      intro u hu
      have := List.find?_eq_none.mp hnone u hu
      simpa using this
    have h1 : (deleteTask id s).1 = false := by rw [deleteTask_fst, hany]
    constructor <;> simp [deleteTaskHandler, h1]
  · by_cases h : (jsFalsy title || jsFalsy day) = true <;>
      simp_all [postTaskHandler, createTask]
  · by_cases h : (jsFalsy title || jsFalsy day) = true <;>
      simp_all [postTaskHandler, createTask]
  · by_cases h : (jsFalsy rday || taskIds.isNone) = true <;>
      simp_all [reorderTasksHandler]
  · by_cases h : (jsFalsy rday || taskIds.isNone) = true <;>
      simp_all [reorderTasksHandler]

/-- Witness for C6: the not-found branches at a concrete store with one
task, and a concrete rejected reorder. -/
theorem C6_publish_iff_success_witness :
    ((putTaskHandler "zz" [("completed", FieldValue.bool true)] 5
        ⟨[⟨"a", "T", none, "monday", 1, false, 0, 0⟩], []⟩).status = 404 ∧
      (putTaskHandler "zz" [("completed", FieldValue.bool true)] 5
        ⟨[⟨"a", "T", none, "monday", 1, false, 0, 0⟩], []⟩).events = []) ∧
    ((deleteTaskHandler "zz" ⟨[⟨"a", "T", none, "monday", 1, false, 0, 0⟩], []⟩).status = 404 ∧
      (deleteTaskHandler "zz" ⟨[⟨"a", "T", none, "monday", 1, false, 0, 0⟩], []⟩).events = []) ∧
    ((reorderTasksHandler none (some ["a"])
        ⟨[⟨"a", "T", none, "monday", 1, false, 0, 0⟩], []⟩).status ≠ 200 →
      (reorderTasksHandler none (some ["a"])
        ⟨[⟨"a", "T", none, "monday", 1, false, 0, 0⟩], []⟩).events = [] ∧
      (reorderTasksHandler none (some ["a"])
        ⟨[⟨"a", "T", none, "monday", 1, false, 0, 0⟩], []⟩).state =
        ⟨[⟨"a", "T", none, "monday", 1, false, 0, 0⟩], []⟩) :=
  ⟨(C6_publish_iff_success ⟨[⟨"a", "T", none, "monday", 1, false, 0, 0⟩], []⟩ "zz" 5
      [("completed", FieldValue.bool true)] none none none none none).2.2.1
      (by decide) (by decide),
   (C6_publish_iff_success ⟨[⟨"a", "T", none, "monday", 1, false, 0, 0⟩], []⟩ "zz" 5
      [] none none none none none).2.2.2.2.2.1 (by decide),
   (C6_publish_iff_success ⟨[⟨"a", "T", none, "monday", 1, false, 0, 0⟩], []⟩ "zz" 5
      [] none none none none (some ["a"])).2.2.2.2.2.2.2.2.2⟩

/-- reorderF preserves the id column. -/
theorem reorderF_id (ids : List String) (p : Nat) (t : Task) :
    (reorderF ids p t).id = t.id := by
  unfold reorderF; split <;> rfl

/-- reorderF preserves the day column. -/
theorem reorderF_day (ids : List String) (p : Nat) (t : Task) :
    (reorderF ids p t).day = t.day := by
  unfold reorderF; split <;> rfl

/-- reorderF preserves the created_at column. -/
theorem reorderF_created_at (ids : List String) (p : Nat) (t : Task) :
    (reorderF ids p t).created_at = t.created_at := by
  unfold reorderF; split <;> rfl

/-- A row whose id is not listed is unchanged by reorderF. -/
theorem reorderF_not_mem (ids : List String) (p : Nat) (t : Task)
    (h : t.id ∉ ids) : reorderF ids p t = t := by
  unfold reorderF; rw [if_neg h]

/-- A listed row receives the priority given by its position. -/
theorem reorderF_mem (ids : List String) (p : Nat) (t : Task)
    (h : t.id ∈ ids) :
    reorderF ids p t = { t with priority := ids.indexOf t.id + p } := by
  unfold reorderF; rw [if_pos h]

/-- With duplicate-free listed ids, the sequential priority updates of
the reorder transaction amount to the pointwise map reorderF. -/
theorem reorderFrom_eq_map : ∀ (ids : List String), ids.Nodup →
    ∀ (tasks : List Task) (p : Nat),
      reorderFrom tasks ids p = tasks.map (reorderF ids p) := by
  intro ids
  induction ids with
  | nil =>
    intro _ tasks p
    show tasks = _
    symm
    rw [List.map_congr_left (fun t _ => reorderF_not_mem [] p t (List.not_mem_nil _))]
    simp
  | cons i rest ih =>
    intro hnodup tasks p
    rw [List.nodup_cons] at hnodup
    show reorderFrom (setPriority tasks i p) rest (p + 1) = _
    rw [ih hnodup.2]
    unfold setPriority
    rw [List.map_map]
    apply List.map_congr_left
    intro t _
    show reorderF rest (p + 1) (if t.id = i then { t with priority := p } else t) =
      reorderF (i :: rest) p t
    by_cases h1 : t.id = i
    · have hrhs : reorderF (i :: rest) p t = { t with priority := p } := by
        rw [reorderF_mem _ _ _ (by simp [h1])]
        simp [h1, List.indexOf_cons_self]
      have hni : ({ t with priority := p } : Task).id ∉ rest := by
        show t.id ∉ rest
        rw [h1]
        exact hnodup.1
      rw [if_pos h1, reorderF_not_mem rest (p + 1) _ hni, hrhs]
    · by_cases h2 : t.id ∈ rest
      · rw [if_neg h1, reorderF_mem rest _ _ h2,
          reorderF_mem (i :: rest) p t (by simp [h2])]
        have hidx : (i :: rest).indexOf t.id = rest.indexOf t.id + 1 :=
          List.indexOf_cons_ne rest (fun h => h1 h.symm)
        rw [hidx]
        have harith : rest.indexOf t.id + (p + 1) = rest.indexOf t.id + 1 + p := by
          omega
        rw [harith]
      · rw [if_neg h1, reorderF_not_mem rest _ _ h2,
          reorderF_not_mem (i :: rest) p t (by simp [h1, h2])]

/-- Projecting ids out of a filter on ids commutes with filtering the
projected list. -/
theorem map_id_filter (l : List Task) (ids : List String) :
    (l.filter (fun t => decide (t.id ∈ ids))).map Task.id =
      (l.map Task.id).filter (fun x => decide (x ∈ ids)) := by
  induction l with
  | nil => rfl
  | cons a l ih => by_cases h : a.id ∈ ids <;> simp [h, ih]

/-- A duplicate-free list of strings equals, up to permutation, the
filter of any duplicate-free list containing it to membership in it. -/
theorem filter_mem_perm (l ids : List String) (hl : l.Nodup) (hids : ids.Nodup)
    (hsub : ∀ i ∈ ids, i ∈ l) :
    l.filter (fun x => decide (x ∈ ids)) ~ ids := by
  rw [List.perm_ext_iff_of_nodup (hl.filter _) hids]
  intro a
  simp only [List.mem_filter, decide_eq_true_eq]
  exact ⟨fun h => h.2, fun h => ⟨hsub a h, h⟩⟩

/-- C1 amended: for a duplicate-free list of ids each belonging to a
task of the given day in a store with unique ids, after reorderTasks the
task listed at position j has priority j plus 1, every task whose id is
not listed is fully unchanged, and listing the day yields the mentioned
ids in exactly the supplied order. -/
theorem C1_reorder_day (day : String) (ids : List String) (s : DBState)
    (hstore : (s.tasks.map Task.id).Nodup)
    (hids : ids.Nodup)
    (hmem : ∀ i ∈ ids, ∃ t ∈ s.tasks, t.id = i ∧ t.day = day) :
    (∀ (j : Nat) (hj : j < ids.length), ∃ t ∈ (reorderTasks ids s).tasks,
      t.id = ids[j] ∧ t.priority = j + 1) ∧
    (∀ t ∈ s.tasks, t.id ∉ ids → t ∈ (reorderTasks ids s).tasks) ∧
    ((getTasksByDay day (reorderTasks ids s)).filter
      (fun t => decide (t.id ∈ ids))).map Task.id = ids := by
  have hmap : (reorderTasks ids s).tasks = s.tasks.map (reorderF ids 1) :=
    reorderFrom_eq_map ids hids s.tasks 1
  have hfact : ∀ t ∈ (reorderTasks ids s).tasks, t.id ∈ ids →
      t.day = day ∧ t.priority = ids.indexOf t.id + 1 := by
    intro t ht hmemid
    rw [hmap] at ht
    obtain ⟨t0, ht0, rfl⟩ := List.mem_map.mp ht
    rw [reorderF_id] at hmemid
    obtain ⟨t1, ht1, hid1, hday1⟩ := hmem t0.id hmemid
    have ht01 : t1 = t0 := List.inj_on_of_nodup_map hstore ht1 ht0 hid1
    constructor
    · rw [reorderF_day, ← ht01]
      exact hday1
    · rw [reorderF_mem _ _ _ hmemid]
  refine ⟨?_, ?_, ?_⟩
  · intro j hj
    obtain ⟨t, ht, hidt, hdayt⟩ := hmem ids[j] (List.getElem_mem hj)
    have htm : t.id ∈ ids := hidt ▸ List.getElem_mem hj
    refine ⟨reorderF ids 1 t, hmap ▸ List.mem_map_of_mem _ ht, ?_, ?_⟩
    · rw [reorderF_id, hidt]
    · rw [reorderF_mem _ _ _ htm]
      show List.indexOf t.id ids + 1 = j + 1
      rw [hidt, List.indexOf_getElem hids j hj]
  · intro t ht hnm
    rw [hmap]
    exact (reorderF_not_mem ids 1 t hnm) ▸ List.mem_map_of_mem _ ht
  · set s1 := reorderTasks ids s with hs1
    set L := getTasksByDay day s1 with hL
    set M := L.filter (fun t => decide (t.id ∈ ids)) with hM
    have hLperm : L ~ s1.tasks.filter (fun t => t.day == day) :=
      List.perm_insertionSort taskLE _
    have hLsorted : L.Pairwise taskLE := List.sorted_insertionSort taskLE _
    have hMpair : M.Pairwise taskLE := hLsorted.sublist (List.filter_sublist L)
    have hMperm1 : M ~ (s1.tasks.filter (fun t => t.day == day)).filter
        (fun t => decide (t.id ∈ ids)) := hLperm.filter _
    rw [List.filter_filter] at hMperm1
    have hdrop : s1.tasks.filter (fun t => decide (t.id ∈ ids) && (t.day == day)) =
        s1.tasks.filter (fun t => decide (t.id ∈ ids)) := by
      apply List.filter_congr
      intro t ht
      cases hqt : decide (t.id ∈ ids) with
      | false => simp
      | true =>
        have hday : t.day = day := (hfact t ht (by simpa using hqt)).1
        simp [hday]
    rw [hdrop] at hMperm1
    have hs1ids : s1.tasks.map Task.id = s.tasks.map Task.id := by
      rw [hmap, List.map_map]
      exact List.map_congr_left (fun t _ => reorderF_id ids 1 t)
    have hidsperm : M.map Task.id ~ ids := by
      calc M.map Task.id
          ~ (s1.tasks.filter (fun t => decide (t.id ∈ ids))).map Task.id :=
            hMperm1.map _
        _ = (s1.tasks.map Task.id).filter (fun x => decide (x ∈ ids)) :=
            map_id_filter s1.tasks ids
        _ = (s.tasks.map Task.id).filter (fun x => decide (x ∈ ids)) := by
            rw [hs1ids]
        _ ~ ids := filter_mem_perm _ ids hstore hids (fun i hi => by
            obtain ⟨t, ht, hidt, -⟩ := hmem i hi
            exact hidt ▸ List.mem_map_of_mem Task.id ht)
    have hMnodup : (M.map Task.id).Nodup := hidsperm.nodup_iff.mpr hids
    have hMfact : ∀ t ∈ M, t.id ∈ ids ∧ t.priority = ids.indexOf t.id + 1 := by
      intro t ht
      have hqm : t.id ∈ ids := by
        have := List.of_mem_filter ht
        simpa using this
      have hts1 : t ∈ s1.tasks := by
        have htL : t ∈ L := List.mem_of_mem_filter ht
        exact List.mem_of_mem_filter (hLperm.mem_iff.mp htL)
      exact ⟨hqm, (hfact t hts1 hqm).2⟩
    have hpairlt : M.Pairwise (fun a b => ids.indexOf a.id < ids.indexOf b.id) := by
      have hne : M.Pairwise (fun a b => a.id ≠ b.id) := List.pairwise_map.mp hMnodup
      refine (hMpair.and hne).imp_of_mem ?_
      intro a b ha hb hab
      obtain ⟨hle, hneq⟩ := hab
      obtain ⟨hma, hpa⟩ := hMfact a ha
      obtain ⟨hmb, hpb⟩ := hMfact b hb
      have hia : ids.indexOf a.id < ids.length := List.indexOf_lt_length.mpr hma
      have hib : ids.indexOf b.id < ids.length := List.indexOf_lt_length.mpr hmb
      have hne2 : ids.indexOf a.id ≠ ids.indexOf b.id := by
        intro he
        exact hneq ((List.indexOf_inj hma hmb).mp he)
      rcases hle with h | ⟨heq, -⟩
      · rw [hpa, hpb] at h
        omega
      · rw [hpa, hpb] at heq
        omega
    have hPperm : M.map (fun t => ids.indexOf t.id) ~ List.range ids.length := by
      have h3 : ids.map (fun x => ids.indexOf x) = List.range ids.length := by
        apply List.ext_getElem
        · simp
        · intro j hj1 hj2
          simp only [List.getElem_map, List.getElem_range]
          exact List.indexOf_getElem hids j (by simpa using hj1)
      calc M.map (fun t => ids.indexOf t.id)
          = (M.map Task.id).map (fun x => ids.indexOf x) := by
            rw [List.map_map]; rfl
        _ ~ ids.map (fun x => ids.indexOf x) := hidsperm.map _
        _ = List.range ids.length := h3
    have hPsorted : (M.map (fun t => ids.indexOf t.id)).Pairwise (· < ·) :=
      List.pairwise_map.mpr hpairlt
    haveI : IsAntisymm Nat (· < ·) := ⟨fun a b h1 h2 => absurd h2 (Nat.lt_asymm h1)⟩
    have hPeq : M.map (fun t => ids.indexOf t.id) = List.range ids.length :=
      List.eq_of_perm_of_sorted hPperm hPsorted (List.pairwise_lt_range _)
    have hlen : M.length = ids.length := by
      have := congrArg List.length hPeq
      simpa using this
    apply List.ext_getElem
    · simpa using hlen
    · intro j hj1 hj2
      have hjM : j < M.length := by simpa using hj1
      rw [List.getElem_map]
      have hb : j < (M.map (fun t => ids.indexOf t.id)).length := by
        simpa using hjM
      have h5q : (M.map (fun t => ids.indexOf t.id))[j]? = some j := by
        rw [hPeq]
        simp [hj2]
      have h5g : (M.map (fun t => ids.indexOf t.id))[j]? = some (ids.indexOf M[j].id) := by
        rw [List.getElem?_eq_getElem hb, List.getElem_map]
      have h5 : ids.indexOf M[j].id = j := Option.some_inj.mp (h5g.symm.trans h5q)
      have hmemj : M[j].id ∈ ids := (hMfact _ (List.getElem_mem hjM)).1
      have hidx : ids.indexOf M[j].id < ids.length := List.indexOf_lt_length.mpr hmemj
      have h6 : ids[j]? = some M[j].id := by
        nth_rewrite 1 [← h5]
        rw [List.getElem?_eq_getElem hidx, List.getElem_indexOf hidx]
      have h7 : ids[j]? = some ids[j] := List.getElem?_eq_getElem hj2
      exact (Option.some_inj.mp (h7.symm.trans h6)).symm

/-- Witness for C1 amended: reordering the two monday tasks a, b
(created in that order) to the order b, a. -/
theorem C1_reorder_day_witness :
    (∀ (j : Nat) (hj : j < (["b", "a"] : List String).length),
      ∃ t ∈ (reorderTasks ["b", "a"]
          ⟨[⟨"a", "A", none, "monday", 1, false, 0, 0⟩,
            ⟨"b", "B", none, "monday", 2, false, 1, 1⟩], []⟩).tasks,
        t.id = (["b", "a"] : List String)[j] ∧ t.priority = j + 1) ∧
    (∀ t ∈ (⟨[⟨"a", "A", none, "monday", 1, false, 0, 0⟩,
            ⟨"b", "B", none, "monday", 2, false, 1, 1⟩], []⟩ : DBState).tasks,
      t.id ∉ (["b", "a"] : List String) →
      t ∈ (reorderTasks ["b", "a"]
          ⟨[⟨"a", "A", none, "monday", 1, false, 0, 0⟩,
            ⟨"b", "B", none, "monday", 2, false, 1, 1⟩], []⟩).tasks) ∧
    ((getTasksByDay "monday" (reorderTasks ["b", "a"]
        ⟨[⟨"a", "A", none, "monday", 1, false, 0, 0⟩,
          ⟨"b", "B", none, "monday", 2, false, 1, 1⟩], []⟩)).filter
      (fun t => decide (t.id ∈ (["b", "a"] : List String)))).map Task.id = ["b", "a"] :=
  C1_reorder_day "monday" ["b", "a"]
    ⟨[⟨"a", "A", none, "monday", 1, false, 0, 0⟩,
      ⟨"b", "B", none, "monday", 2, false, 1, 1⟩], []⟩
    (by decide) (by decide) (by decide)

end TodoApp
